import Mathlib

/-!
# fzp validator (`main.go`): check pipeline, file validator, directory walker

A shallow embedding of the `validate` subcommand of the fzp validator.

* Go `error` values are modelled by their message (`String`); a `nil` error is
  `none`.  A `[]error` is a `List String`; the slice built by `validateFolder`
  is `nil` exactly when nothing was appended, i.e. when the list is `[]`.
* Effects are made explicit: every function of `main.go` that prints, reads
  the file system or may call `os.Exit` returns a `Proc`, i.e. the list of
  events it performed together with its outcome (a returned value, or the
  process exit status when `os.Exit` was reached).
* The record loader, the three field checks and the directory listing are
  not part of `main.go`; the functions of `main.go` take them from an `Env`.
-/

namespace FzpValidator

/-! ## Effects -/

/-- Observable actions of a run, in program order. -/
inductive Event where
  /-- Text written to standard output (`fmt.Println`, `fmt.Printf`). -/
  | stdout (s : String)
  /-- One call `ioutil.ReadDir(src)`. -/
  | readDir (src : String)
  /-- One call `fzp.ReadFzp(src)`; `validateFile` performs exactly one, as
  its first action, so these events count the invocations of `validateFile`. -/
  | readFzp (src : String)
  /-- One call of the field check method with the given name. -/
  | check (name : String)
  deriving DecidableEq, Repr

/-- How a computation ends: it returns a value, or `os.Exit(code)` ended the
process. -/
inductive Outcome (α : Type) where
  | ret (a : α)
  | exit (code : Nat)
  deriving DecidableEq, Repr

/-- A computation that has been run: the events it performed and how it
ended. -/
structure Proc (α : Type) where
  trace : List Event
  out : Outcome α
  deriving DecidableEq, Repr

/-- Sequencing: the second computation runs only when the first returned. -/
def Proc.bind {α β : Type} (m : Proc α) (f : α → Proc β) : Proc β :=
  match m.out with
  | Outcome.ret a => ⟨m.trace ++ (f a).trace, (f a).out⟩
  | Outcome.exit code => ⟨m.trace, Outcome.exit code⟩

instance : Monad Proc where
  pure a := ⟨[], Outcome.ret a⟩
  bind := Proc.bind

/-- Perform one event and return. -/
def emit (e : Event) : Proc Unit := ⟨[e], Outcome.ret ()⟩

/-- Model of `os.Exit(code)`: the process ends here. -/
def osExit {α : Type} (code : Nat) : Proc α := ⟨[], Outcome.exit code⟩

/-- Model of `fmt.Println(a, b, ...)` on already formatted operands: operands
are separated by one space and a newline is appended. -/
def Println (operands : List String) : Proc Unit :=
  emit (Event.stdout (" ".intercalate operands ++ "\n"))

/-- Model of `fmt.Printf` / `fmt.Print` on an already formatted text. -/
def Printf (text : String) : Proc Unit := emit (Event.stdout text)

/-! ## Standard library: `filepath.Ext`, `strconv.Itoa` -/

/-- Model of `os.IsPathSeparator` (Unix). -/
def IsPathSeparator (ch : Char) : Bool := ch == '/'

/-- The loop of `filepath.Ext`:
`for i := len(path) - 1; i >= 0 && !os.IsPathSeparator(path[i]); i--`
with body `if path[i] == '.' { return path[i:] }`, falling through to
`return ""`.  The argument `n` is `i + 1`. -/
def Ext.loop (path : List Char) : Nat → List Char
  | 0 => []
  | i + 1 =>
    match path.get? i with
    | none => []
    | some ch =>
      if IsPathSeparator ch then []
      else if ch = '.' then path.drop i
      else Ext.loop path i

/-- Model of `filepath.Ext`: the suffix beginning at the final dot in the
final element of `path`, or the empty string.  Go scans bytes, the model
scans characters; the bytes of `.` and `/` never occur inside a multi-byte
UTF-8 sequence, so both scans stop at the same place. -/
def Ext (path : String) : String := String.mk (Ext.loop path.data path.data.length)

/-- Model of `strconv.Itoa` on a non-negative `int`. -/
def Itoa (n : Nat) : String := toString n

/-! ## Command line context (`cli.Context`) -/

/-- The parsed flags of the `validate` subcommand: the value of every boolean
flag and of every string flag, by flag name.  An absent string flag has the
value `""`, an absent boolean flag the value `false`. -/
structure Context where
  boolFlags : String → Bool
  stringFlags : String → String

/-- Model of `c.Bool(name)`. -/
def Context.Bool (c : Context) (name : String) : Bool := c.boolFlags name

/-- Model of `c.String(name)`. -/
def Context.String (c : Context) (name : String) : String := c.stringFlags name

/-! ## The external collaborators -/

/-- The part of `os.FileInfo` that can matter to the walker: the entry name,
and whether the entry is a directory. -/
structure FileInfo where
  Name : String
  IsDir : Bool
  deriving DecidableEq, Repr

/-- Everything `main.go` takes from outside, for a record type `Rec`
(`fzp.Fzp`): the record loader, the directory listing (the file system is
not modified during a run, so both are functions of the path), the three
field checks (`none` is a `nil` error, `some reason` an error), and the
texts produced by code that is not in `main.go`. -/
structure Env (Rec : Type) where
  /-- Result of `fzp.ReadFzp(src)`: the record, or the load error. -/
  ReadFzp : String → Except String Rec
  /-- Result of `ioutil.ReadDir(src)`: the entries in listing order, or the
  error. -/
  ReadDir : String → Except String (List FileInfo)
  /-- Result of `fzpData.CheckModuleId()`. -/
  CheckModuleId : Rec → Option String
  /-- Result of `fzpData.CheckTitle()`. -/
  CheckTitle : Rec → Option String
  /-- Result of `fzpData.CheckProperties()`. -/
  CheckProperties : Rec → Option String
  /-- What `fmt.Printf` appends for the surplus operand `fzpData` of the
  verbose message in `validateFile`. -/
  fmtExtra : Rec → String
  /-- What `cli.ShowSubcommandHelp(c)` prints. -/
  subcommandHelp : String

section Program

variable {Rec : Type}

/-- The call `fzp.ReadFzp(src)`. -/
def callReadFzp (env : Env Rec) (src : String) : Proc (Except String Rec) := do
  emit (Event.readFzp src)
  pure (env.ReadFzp src)

/-- The call `ioutil.ReadDir(src)`. -/
def callReadDir (env : Env Rec) (src : String) : Proc (Except String (List FileInfo)) := do
  emit (Event.readDir src)
  pure (env.ReadDir src)

/-- The call of one field check method on a record. -/
def callCheck (name : String) (check : Rec → Option String) (fzpData : Rec) :
    Proc (Option String) := do
  emit (Event.check name)
  pure (check fzpData)

/-! ## `main.go` -/

/-- Embedding of `Log`: prints the formatted text when the global `verbose`
is set.  The global is passed explicitly; only `cliValidateAction` assigns
it. -/
def Log (verbose : Bool) (text : String) : Proc Unit :=
  if verbose then Printf text else pure ()

/-- Embedding of `isExtFzp`. -/
def isExtFzp (src : String) : Bool :=
  if Ext src == ".fzp" then true else false

/-- Embedding of `checkData`: the three wired checks, in source order, each
guarded by the negation of its `no-check-` flag. -/
def checkData (env : Env Rec) (c : Context) (fzpData : Rec) : Proc Nat := do
  let mut checkErrorCounter := 0
  if !c.Bool "no-check-moduleid" then
    if let some err ← callCheck "CheckModuleId" env.CheckModuleId fzpData then
      Println ["=>", err]
      checkErrorCounter := checkErrorCounter + 1
  if !c.Bool "no-check-title" then
    if let some err ← callCheck "CheckTitle" env.CheckTitle fzpData then
      Println ["=>", err]
      checkErrorCounter := checkErrorCounter + 1
  if !c.Bool "no-check-properties" then
    if let some err ← callCheck "CheckProperties" env.CheckProperties fzpData then
      Println ["=>", err]
      checkErrorCounter := checkErrorCounter + 1
  return checkErrorCounter

/-- Embedding of `validateFile`.  A load error prints and ends the process
with status 1; otherwise the result is the returned `error` (`none` for
`nil`). -/
def validateFile (env : Env Rec) (verbose : Bool) (c : Context) (src : String) :
    Proc (Option String) := do
  match ← callReadFzp env src with
  | Except.error err =>
    Printf ("validator failed @ " ++ err ++ "\n")
    osExit 1
  | Except.ok fzpData =>
    Log verbose ("fzp file '" ++ src ++ "' successful read\n" ++ env.fmtExtra fzpData)
    let errCounter ← checkData env c fzpData
    if errCounter != 0 then
      return some (Itoa errCounter ++ " Errors @ " ++ src)
    Log verbose "fzp valid\n"
    return none

/-- The `for _, v := range folderFiles` loop of `validateFolder`, with the
current value of `errList`. -/
def validateFolder.loop (env : Env Rec) (verbose : Bool) (c : Context) (src : String) :
    List FileInfo → List String → Proc (List String)
  | [], errList => pure errList
  | v :: rest, errList => do
    let filename := v.Name
    if isExtFzp filename then
      match ← validateFile env verbose c (src ++ "/" ++ filename) with
      | some err =>
        let errList := errList ++ [err]
        Println [err, "\n"]
        validateFolder.loop env verbose c src rest errList
      | none => validateFolder.loop env verbose c src rest errList
    else
      validateFolder.loop env verbose c src rest errList

/-- Embedding of `validateFolder`. -/
def validateFolder (env : Env Rec) (verbose : Bool) (c : Context) (src : String) :
    Proc (List String) := do
  let errList : List String := []
  match ← callReadDir env src with
  | Except.error _ =>
    let errList := errList ++ ["validator failed @ read folder '" ++ src ++ "'"]
    return errList
  | Except.ok folderFiles =>
    validateFolder.loop env verbose c src folderFiles errList

/-- The value of `c.App.Name`, assigned in `main`. -/
def appName : String := "validator"

/-- Embedding of `cliValidateAction`. -/
def cliValidateAction (env : Env Rec) (c : Context) : Proc Unit := do
  let fzpFile := c.String "file"
  let fzpDir := c.String "dir"
  let verbose := c.Bool "verbose"
  if fzpFile != "" then
    if let some err ← validateFile env verbose c fzpFile then
      Println [err]
      osExit 1
    osExit 0
  else if fzpDir != "" then
    Log verbose ("read folder '" ++ fzpDir ++ "'\n")
    if (← validateFolder env verbose c fzpDir) != [] then
      osExit 1
    osExit 0
  else
    Printf env.subcommandHelp
    Println ["USAGE-SAMPLES"]
    Println [""]
    Printf ("   $ " ++ appName ++ " validate --file file/path.fzp\n")
    Println ["   # or"]
    Printf ("   $ " ++ appName ++ " validate -f file/path.fzp\n")
    Println [""]
    Printf ("   $ " ++ appName ++ " validate --dir file/dir\n")
    Println ["   # or"]
    Printf ("   $ " ++ appName ++ " validate -d file/dir\n")
    Println [""]
    Println ["also you can combine the other flags (no-check, verbose)"]

/-- Exit status of the process for an invocation of the `validate`
subcommand: the status passed to `os.Exit`, or 0 when `cliValidateAction`
returns and `main` ends normally. -/
def exitStatus (env : Env Rec) (c : Context) : Nat :=
  match (cliValidateAction env c).out with
  | Outcome.exit code => code
  | Outcome.ret _ => 0

end Program

/-! ## The fzp library, as far as the specification describes it -/

/-- Modelled from the spec: one entry of the property collection of
`fzp.Fzp` (the type is declared in the fzp library, not in `main.go`): a
name/value pair. -/
structure Property where
  Name : String
  Value : String
  deriving DecidableEq, Repr

/-- Modelled from the spec: the record type `fzp.Fzp` (declared in the fzp
library, not in `main.go`), with the attributes relevant to validation: a
module identifier, a title and an ordered property collection.  An absent
field is the empty string. -/
structure Fzp where
  ModuleId : String
  Title : String
  Properties : List Property
  deriving DecidableEq, Repr

/-- Modelled from the spec: the method `CheckModuleId` of the fzp library
(not in `main.go`): "fails if the module identifier is empty or absent".
The wording of the reason is not fixed by the spec. -/
def Fzp.CheckModuleId (f : Fzp) : Option String :=
  if f.ModuleId = "" then some "module id is empty" else none

/-- Modelled from the spec: the method `CheckTitle` of the fzp library (not
in `main.go`): "fails if the title field is empty or absent".  The wording of
the reason is not fixed by the spec. -/
def Fzp.CheckTitle (f : Fzp) : Option String :=
  if f.Title = "" then some "title is empty" else none

/-- Modelled from the spec: the method `CheckProperties` of the fzp library
(not in `main.go`): "fails if the property collection is empty".  The spec
leaves a stricter rule on individual properties to the implementer; it is
not part of this model, since the spec also requires zero failures for every
record with a non-empty property collection, module id and title.  The
wording of the reason is not fixed by the spec. -/
def Fzp.CheckProperties (f : Fzp) : Option String :=
  if f.Properties.isEmpty then some "properties are empty" else none

/-- The environment `base` with the three field checks of the spec model. -/
def specEnv (base : Env Fzp) : Env Fzp :=
  { base with
    CheckModuleId := Fzp.CheckModuleId
    CheckTitle := Fzp.CheckTitle
    CheckProperties := Fzp.CheckProperties }

/-! ## Observations on runs -/

/-- The texts written to standard output, in order. -/
def printed : List Event → List String
  | [] => []
  | Event.stdout s :: t => s :: printed t
  | _ :: t => printed t

/-- The names of the field checks that were called, in order. -/
def checksRun : List Event → List String
  | [] => []
  | Event.check name :: t => name :: checksRun t
  | _ :: t => checksRun t

/-- The paths on which the record loader was called, in order: one per
invocation of `validateFile`. -/
def validateFileCalls : List Event → List String
  | [] => []
  | Event.readFzp src :: t => src :: validateFileCalls t
  | _ :: t => validateFileCalls t

/-- The paths on which a directory listing was requested, in order. -/
def readDirCalls : List Event → List String
  | [] => []
  | Event.readDir src :: t => src :: readDirCalls t
  | _ :: t => readDirCalls t

/-- The events of one guarded check block of `checkData`. -/
def stepEvents (disabled : Bool) (name : String) (res : Option String) : List Event :=
  if disabled then []
  else
    match res with
    | some err => [Event.check name, Event.stdout (" ".intercalate ["=>", err] ++ "\n")]
    | none => [Event.check name]

/-- What one guarded check block of `checkData` adds to the counter. -/
def stepCount (disabled : Bool) (res : Option String) : Nat :=
  if disabled then 0
  else
    match res with
    | some _ => 1
    | none => 0

/-- The line printed for the failure of one check that is not disabled: the
list is empty when the check is disabled or passes. -/
def reasonLines (disabled : Bool) (res : Option String) : List String :=
  if disabled then []
  else
    match res with
    | some err => ["=> " ++ err ++ "\n"]
    | none => []

/-- The nine flags of the `validate` subcommand that disable a check which
`checkData` does not contain. -/
def unwiredFlags : List String :=
  ["no-check-fritzingversion", "no-check-referencefile", "no-check-version",
   "no-check-description", "no-check-family", "no-check-tags", "no-check-views",
   "no-check-connectors", "no-check-buses"]

/-- All twelve `no-check-` flags of the `validate` subcommand. -/
def noCheckFlags : List String :=
  ["no-check-moduleid", "no-check-title", "no-check-properties"] ++ unwiredFlags

/-- The number `checkData` returns on a record. -/
def failureCount {Rec : Type} (env : Env Rec) (c : Context) (fzpData : Rec) : Nat :=
  match (checkData env c fzpData).out with
  | Outcome.ret n => n
  | Outcome.exit _ => 0

/-- The error `validateFile` returns on a path (`none` when it returns `nil`
or does not return). -/
def fileError {Rec : Type} (env : Env Rec) (verbose : Bool) (c : Context) (src : String) :
    Option String :=
  match (validateFile env verbose c src).out with
  | Outcome.ret err => err
  | Outcome.exit _ => none

/-- The path `validateFolder` passes to `validateFile` for an entry. -/
def entryPath (src : String) (v : FileInfo) : String := src ++ "/" ++ v.Name

/-- The entries of a listing that `validateFolder` passes to `validateFile`:
those whose name has the extension. -/
def matching (folderFiles : List FileInfo) : List FileInfo :=
  folderFiles.filter (fun v => isExtFzp v.Name)

/-! ## Concrete inputs -/

/-- A context with every boolean flag unset and the given `--file` and
`--dir` values. -/
def mkContext (file dir : String) : Context :=
  { boolFlags := fun _ => false
    stringFlags := fun name => if name = "file" then file else if name = "dir" then dir else "" }

/-- The default configuration: no flag given. -/
def defaultContext : Context := mkContext "" ""

/-- The context `c` with the listed boolean flags set. -/
def withFlags (c : Context) (names : List String) : Context :=
  { c with boolFlags := fun name => if name ∈ names then true else c.boolFlags name }

/-- A record that passes the three checks. -/
def validRecord : Fzp := ⟨"m1", "LED", [⟨"color", "red"⟩]⟩

/-- The record of the first scenario: empty module id. -/
def noIdRecord : Fzp := ⟨"", "LED", [⟨"color", "red"⟩]⟩

/-- The record of the third scenario: empty title, no properties. -/
def bareRecord : Fzp := ⟨"m1", "", []⟩

/-- A record on which the three checks fail. -/
def blankRecord : Fzp := ⟨"", "", []⟩

/-- An environment without any file or directory. -/
def emptyEnv : Env Fzp :=
  { ReadFzp := fun src => Except.error ("open " ++ src ++ ": no such file or directory")
    ReadDir := fun src => Except.error ("open " ++ src ++ ": no such file or directory")
    CheckModuleId := Fzp.CheckModuleId
    CheckTitle := Fzp.CheckTitle
    CheckProperties := Fzp.CheckProperties
    fmtExtra := fun _ => ""
    subcommandHelp := "" }

/-- The directory of the last scenario of the spec: `parts` holds `a.fzp`
(valid), `b.fzp` (empty module id) and `c.txt`; a second directory `docs`
holds a subdirectory `img` and `readme.txt`; the files `bare.fzp` (empty
title, no properties) and `blank.fzp` (everything empty) lie outside both. -/
def sampleEnv : Env Fzp :=
  { emptyEnv with
    ReadDir := fun src =>
      if src = "parts" then
        Except.ok [⟨"a.fzp", false⟩, ⟨"b.fzp", false⟩, ⟨"c.txt", false⟩]
      else if src = "docs" then Except.ok [⟨"img", true⟩, ⟨"readme.txt", false⟩]
      else Except.error ("open " ++ src ++ ": no such file or directory")
    ReadFzp := fun src =>
      if src = "parts/a.fzp" then Except.ok validRecord
      else if src = "parts/b.fzp" then Except.ok noIdRecord
      else if src = "bare.fzp" then Except.ok bareRecord
      else if src = "blank.fzp" then Except.ok blankRecord
      else Except.error ("open " ++ src ++ ": no such file or directory") }

/-- A directory `parts` in which the matching file `a.fzp` is not a readable
record (the load fails), followed by the valid `b.fzp`. -/
def brokenFileEnv : Env Fzp :=
  { emptyEnv with
    ReadDir := fun src =>
      if src = "parts" then Except.ok [⟨"a.fzp", false⟩, ⟨"b.fzp", false⟩]
      else Except.error ("open " ++ src ++ ": no such file or directory")
    ReadFzp := fun src =>
      if src = "parts/a.fzp" then Except.error "EOF"
      else if src = "parts/b.fzp" then Except.ok validRecord
      else Except.error ("open " ++ src ++ ": no such file or directory") }

/-- A directory `parts` whose only entry is a subdirectory named `sub.fzp`;
loading a directory as a record fails. -/
def subdirEnv : Env Fzp :=
  { emptyEnv with
    ReadDir := fun src =>
      if src = "parts" then Except.ok [⟨"sub.fzp", true⟩]
      else Except.error ("open " ++ src ++ ": no such file or directory")
    ReadFzp := fun src =>
      if src = "parts/sub.fzp" then Except.error "read parts/sub.fzp: is a directory"
      else Except.error ("open " ++ src ++ ": no such file or directory") }

/-! ## Theorems -/

section Theorems

variable {Rec : Type}

/-- The whole run of `checkData`: the three guarded blocks one after the
other. -/
theorem checkData_eq (env : Env Rec) (c : Context) (r : Rec) :
    checkData env c r =
      ⟨stepEvents (c.Bool "no-check-moduleid") "CheckModuleId" (env.CheckModuleId r) ++
        (stepEvents (c.Bool "no-check-title") "CheckTitle" (env.CheckTitle r) ++
         stepEvents (c.Bool "no-check-properties") "CheckProperties" (env.CheckProperties r)),
       Outcome.ret (stepCount (c.Bool "no-check-moduleid") (env.CheckModuleId r) +
         stepCount (c.Bool "no-check-title") (env.CheckTitle r) +
         stepCount (c.Bool "no-check-properties") (env.CheckProperties r))⟩ := by
  rcases h1 : c.Bool "no-check-moduleid" <;> rcases h2 : c.Bool "no-check-title" <;>
    rcases h3 : c.Bool "no-check-properties" <;> rcases e1 : env.CheckModuleId r <;>
    rcases e2 : env.CheckTitle r <;> rcases e3 : env.CheckProperties r <;>
    simp [checkData, bind, pure, Proc.bind, callCheck, emit, Println, stepEvents, stepCount,
      h1, h2, h3, e1, e2, e3]

theorem stepCount_le_one (d : Bool) (res : Option String) : stepCount d res ≤ 1 := by
  cases d <;> cases res <;> simp [stepCount]

theorem stepCount_eq_ite (d : Bool) (res : Option String) :
    stepCount d res = if d = false ∧ res.isSome = true then 1 else 0 := by
  cases d <;> cases res <;> simp [stepCount]

theorem printed_append (a b : List Event) : printed (a ++ b) = printed a ++ printed b := by
  induction a with
  | nil => rfl
  | cons e t ih => cases e <;> simp [printed, ih]

theorem checksRun_append (a b : List Event) :
    checksRun (a ++ b) = checksRun a ++ checksRun b := by
  induction a with
  | nil => rfl
  | cons e t ih => cases e <;> simp [checksRun, ih]

theorem println_reason (err : String) :
    " ".intercalate ["=>", err] ++ "\n" = "=> " ++ err ++ "\n" := by
  simp [String.intercalate, String.intercalate.go]

theorem printed_stepEvents (d : Bool) (name : String) (res : Option String) :
    printed (stepEvents d name res) = reasonLines d res := by
  cases d <;> cases res <;> simp [stepEvents, reasonLines, printed, println_reason]

theorem checksRun_stepEvents (d : Bool) (name : String) (res : Option String) :
    checksRun (stepEvents d name res) = if d then [] else [name] := by
  cases d <;> cases res <;> simp [stepEvents, checksRun]

/-- C1: `checkData` returns the number of checks among module-id, title and
properties whose no-check flag is not set and whose check reports an error on
the record; each such check adds exactly one whatever the other two do, the
result is at most 3, and it is the same for any two configurations that
differ only in the nine unwired no-check flags. -/
theorem checkData_count (env : Env Rec) (c : Context) (r : Rec) :
    (checkData env c r).out = Outcome.ret
        ((if c.Bool "no-check-moduleid" = false ∧ (env.CheckModuleId r).isSome = true
            then 1 else 0) +
         (if c.Bool "no-check-title" = false ∧ (env.CheckTitle r).isSome = true
            then 1 else 0) +
         (if c.Bool "no-check-properties" = false ∧ (env.CheckProperties r).isSome = true
            then 1 else 0)) ∧
    (∃ n, (checkData env c r).out = Outcome.ret n ∧ 0 ≤ n ∧ n ≤ 3) ∧
    (∀ c' : Context, (∀ name, name ∉ unwiredFlags → c'.Bool name = c.Bool name) →
        checkData env c' r = checkData env c r) := by
  refine ⟨?_, ?_, ?_⟩
  · rw [checkData_eq]
    simp only [stepCount_eq_ite]
  · rw [checkData_eq]
    refine ⟨_, rfl, Nat.zero_le _, ?_⟩
    have h1 := stepCount_le_one (c.Bool "no-check-moduleid") (env.CheckModuleId r)
    have h2 := stepCount_le_one (c.Bool "no-check-title") (env.CheckTitle r)
    have h3 := stepCount_le_one (c.Bool "no-check-properties") (env.CheckProperties r)
    omega
  · intro c' h
    rw [checkData_eq, checkData_eq, h "no-check-moduleid" (by decide),
      h "no-check-title" (by decide), h "no-check-properties" (by decide)]

/-- Witness for C1: the record with an empty title and no properties, with
`no-check-tags` and `no-check-buses` set. -/
theorem checkData_count_witness :
    (checkData emptyEnv (withFlags defaultContext ["no-check-tags", "no-check-buses"])
        bareRecord).out = Outcome.ret 2 ∧
    checkData emptyEnv (withFlags defaultContext ["no-check-tags", "no-check-buses"]) bareRecord
      = checkData emptyEnv defaultContext bareRecord := by
  have h := checkData_count emptyEnv defaultContext bareRecord
  refine ⟨?_, h.2.2 _ ?_⟩
  · rw [(checkData_count emptyEnv (withFlags defaultContext ["no-check-tags", "no-check-buses"])
      bareRecord).1]
    decide
  · intro name hn
    simp [withFlags, Context.Bool, defaultContext, mkContext]
    refine ⟨?_, ?_⟩ <;> (rintro rfl; simp [unwiredFlags] at hn)

/-- C2: under the spec model of the three checks, for every record with a
non-empty module id, a non-empty title and a non-empty property collection,
`checkData` with no no-check flag set runs the three checks, prints nothing
and returns 0. -/
theorem checkData_complete_record (base : Env Fzp) (c : Context) (r : Fzp)
    (hc : ∀ name ∈ noCheckFlags, c.Bool name = false)
    (hm : r.ModuleId ≠ "") (ht : r.Title ≠ "") (hp : r.Properties ≠ []) :
    checkData (specEnv base) c r =
      ⟨[Event.check "CheckModuleId", Event.check "CheckTitle", Event.check "CheckProperties"],
       Outcome.ret 0⟩ := by
  have e1 : Fzp.CheckModuleId r = none := by simp [Fzp.CheckModuleId, hm]
  have e2 : Fzp.CheckTitle r = none := by simp [Fzp.CheckTitle, ht]
  have e3 : Fzp.CheckProperties r = none := by simp [Fzp.CheckProperties, hp]
  rw [checkData_eq, hc "no-check-moduleid" (by decide), hc "no-check-title" (by decide),
    hc "no-check-properties" (by decide)]
  simp [specEnv, e1, e2, e3, stepEvents, stepCount]

/-- Witness for C2: the record `m1` / `LED` / `color = red`, default
configuration. -/
theorem checkData_complete_record_witness :
    checkData (specEnv emptyEnv) defaultContext validRecord =
      ⟨[Event.check "CheckModuleId", Event.check "CheckTitle", Event.check "CheckProperties"],
       Outcome.ret 0⟩ :=
  checkData_complete_record emptyEnv defaultContext validRecord
    (by decide) (by decide) (by decide) (by decide)

/-- C3: when the flag `no-check-X` of a wired check X is set, X is not
called, the result of `checkData` is the same whatever X would report on the
record, the printed lines are exactly the reasons of the other two checks
that are enabled and fail, and the count is the number of those; with the
three flags set nothing happens and the count is 0. -/
theorem checkData_disabled (env : Env Rec) (c : Context) (r : Rec) :
    (c.Bool "no-check-moduleid" = true →
      "CheckModuleId" ∉ checksRun (checkData env c r).trace ∧
      (∀ f, checkData { env with CheckModuleId := f } c r = checkData env c r) ∧
      printed (checkData env c r).trace =
        reasonLines (c.Bool "no-check-title") (env.CheckTitle r) ++
        reasonLines (c.Bool "no-check-properties") (env.CheckProperties r) ∧
      (checkData env c r).out = Outcome.ret
        ((reasonLines (c.Bool "no-check-title") (env.CheckTitle r)).length +
         (reasonLines (c.Bool "no-check-properties") (env.CheckProperties r)).length)) ∧
    (c.Bool "no-check-title" = true →
      "CheckTitle" ∉ checksRun (checkData env c r).trace ∧
      (∀ f, checkData { env with CheckTitle := f } c r = checkData env c r) ∧
      printed (checkData env c r).trace =
        reasonLines (c.Bool "no-check-moduleid") (env.CheckModuleId r) ++
        reasonLines (c.Bool "no-check-properties") (env.CheckProperties r) ∧
      (checkData env c r).out = Outcome.ret
        ((reasonLines (c.Bool "no-check-moduleid") (env.CheckModuleId r)).length +
         (reasonLines (c.Bool "no-check-properties") (env.CheckProperties r)).length)) ∧
    (c.Bool "no-check-properties" = true →
      "CheckProperties" ∉ checksRun (checkData env c r).trace ∧
      (∀ f, checkData { env with CheckProperties := f } c r = checkData env c r) ∧
      printed (checkData env c r).trace =
        reasonLines (c.Bool "no-check-moduleid") (env.CheckModuleId r) ++
        reasonLines (c.Bool "no-check-title") (env.CheckTitle r) ∧
      (checkData env c r).out = Outcome.ret
        ((reasonLines (c.Bool "no-check-moduleid") (env.CheckModuleId r)).length +
         (reasonLines (c.Bool "no-check-title") (env.CheckTitle r)).length)) ∧
    (c.Bool "no-check-moduleid" = true → c.Bool "no-check-title" = true →
      c.Bool "no-check-properties" = true →
      checkData env c r = ⟨[], Outcome.ret 0⟩) := by
  refine ⟨?_, ?_, ?_, ?_⟩
  · intro h
    refine ⟨?_, ?_, ?_, ?_⟩
    · rw [checkData_eq]
      simp only [checksRun_append, checksRun_stepEvents, h]
      cases c.Bool "no-check-title" <;> cases c.Bool "no-check-properties" <;> decide
    · intro f
      rw [checkData_eq, checkData_eq]
      simp [h, stepEvents, stepCount]
    · rw [checkData_eq]
      simp [printed_append, printed_stepEvents, h, reasonLines]
    · rw [checkData_eq]
      cases c.Bool "no-check-title" <;> cases c.Bool "no-check-properties" <;>
        cases env.CheckTitle r <;> cases env.CheckProperties r <;>
        simp [h, stepCount, reasonLines]
  · intro h
    refine ⟨?_, ?_, ?_, ?_⟩
    · rw [checkData_eq]
      simp only [checksRun_append, checksRun_stepEvents, h]
      cases c.Bool "no-check-moduleid" <;> cases c.Bool "no-check-properties" <;> decide
    · intro f
      rw [checkData_eq, checkData_eq]
      simp [h, stepEvents, stepCount]
    · rw [checkData_eq]
      simp [printed_append, printed_stepEvents, h, reasonLines]
    · rw [checkData_eq]
      cases c.Bool "no-check-moduleid" <;> cases c.Bool "no-check-properties" <;>
        cases env.CheckModuleId r <;> cases env.CheckProperties r <;>
        simp [h, stepCount, reasonLines]
  · intro h
    refine ⟨?_, ?_, ?_, ?_⟩
    · rw [checkData_eq]
      simp only [checksRun_append, checksRun_stepEvents, h]
      cases c.Bool "no-check-moduleid" <;> cases c.Bool "no-check-title" <;> decide
    · intro f
      rw [checkData_eq, checkData_eq]
      simp [h, stepEvents, stepCount]
    · rw [checkData_eq]
      simp [printed_append, printed_stepEvents, h, reasonLines]
    · rw [checkData_eq]
      cases c.Bool "no-check-moduleid" <;> cases c.Bool "no-check-title" <;>
        cases env.CheckModuleId r <;> cases env.CheckTitle r <;>
        simp [h, stepCount, reasonLines]
  · intro h1 h2 h3
    rw [checkData_eq]
    simp [h1, h2, h3, stepEvents, stepCount]

/-- Witness for C3: the second scenario of the spec (empty module id with
`no-check-moduleid` set gives 0 failures and prints nothing), and the record
without title and properties with the three flags set. -/
theorem checkData_disabled_witness :
    (printed (checkData emptyEnv (withFlags defaultContext ["no-check-moduleid"])
        noIdRecord).trace = [] ∧
     (checkData emptyEnv (withFlags defaultContext ["no-check-moduleid"]) noIdRecord).out
        = Outcome.ret 0) ∧
    checkData emptyEnv
      (withFlags defaultContext ["no-check-moduleid", "no-check-title", "no-check-properties"])
      bareRecord = ⟨[], Outcome.ret 0⟩ := by
  refine ⟨?_, (checkData_disabled emptyEnv _ bareRecord).2.2.2 (by decide) (by decide)
    (by decide)⟩
  have h := (checkData_disabled emptyEnv (withFlags defaultContext ["no-check-moduleid"])
    noIdRecord).1 (by decide)
  exact ⟨h.2.2.1.trans (by decide), h.2.2.2.trans (by decide)⟩

/-! ### `validateFile` -/

theorem checkData_out (env : Env Rec) (c : Context) (r : Rec) :
    (checkData env c r).out = Outcome.ret (failureCount env c r) := by
  simp [failureCount, checkData_eq]

theorem failureCount_le (env : Env Rec) (c : Context) (r : Rec) : failureCount env c r ≤ 3 := by
  have h1 := stepCount_le_one (c.Bool "no-check-moduleid") (env.CheckModuleId r)
  have h2 := stepCount_le_one (c.Bool "no-check-title") (env.CheckTitle r)
  have h3 := stepCount_le_one (c.Bool "no-check-properties") (env.CheckProperties r)
  simp only [failureCount, checkData_eq]
  omega

/-- A load error ends the process: the load, one printed line, exit 1. -/
theorem validateFile_load_error (env : Env Rec) (verbose : Bool) (c : Context) (src e : String)
    (h : env.ReadFzp src = Except.error e) :
    validateFile env verbose c src =
      ⟨[Event.readFzp src, Event.stdout ("validator failed @ " ++ e ++ "\n")],
       Outcome.exit 1⟩ := by
  simp [validateFile, bind, pure, Proc.bind, callReadFzp, emit, h, Printf, osExit]

/-- The run of `validateFile` on a file that loads. -/
theorem validateFile_loaded (env : Env Rec) (verbose : Bool) (c : Context) (src : String)
    (r : Rec) (h : env.ReadFzp src = Except.ok r) :
    validateFile env verbose c src =
      ⟨Event.readFzp src ::
        ((Log verbose ("fzp file '" ++ src ++ "' successful read\n" ++ env.fmtExtra r)).trace ++
         ((checkData env c r).trace ++
          (if failureCount env c r = 0 then (Log verbose "fzp valid\n").trace else []))),
       Outcome.ret (if failureCount env c r = 0 then none
         else some (Itoa (failureCount env c r) ++ " Errors @ " ++ src))⟩ := by
  have ho := checkData_out env c r
  by_cases hz : failureCount env c r = 0 <;> cases verbose <;>
    simp [validateFile, bind, pure, Proc.bind, callReadFzp, emit, h, Printf, Log, ho, hz]

/-- C4: when the file at `src` loads, `validateFile` returns, and it returns
no error exactly when `checkData` returns 0 on the loaded record; otherwise
the error message is the count `n` written in decimal, then `" Errors @ "`,
then `src`: since the count is at most 3, it is `1 Errors @ <src>`,
`2 Errors @ <src>` or `3 Errors @ <src>`. -/
theorem validateFile_error_iff (env : Env Rec) (verbose : Bool) (c : Context) (src : String)
    (r : Rec) (h : env.ReadFzp src = Except.ok r) :
    ∃ n, (checkData env c r).out = Outcome.ret n ∧ n ≤ 3 ∧
      ((validateFile env verbose c src).out = Outcome.ret none ↔ n = 0) ∧
      (n ≠ 0 → (validateFile env verbose c src).out =
        Outcome.ret (some (Nat.repr n ++ " Errors @ " ++ src))) ∧
      (n = 1 → (validateFile env verbose c src).out =
        Outcome.ret (some ("1 Errors @ " ++ src))) ∧
      (n = 2 → (validateFile env verbose c src).out =
        Outcome.ret (some ("2 Errors @ " ++ src))) ∧
      (n = 3 → (validateFile env verbose c src).out =
        Outcome.ret (some ("3 Errors @ " ++ src))) := by
  have hv := validateFile_loaded env verbose c src r h
  have hrepr : ∀ n : Nat, Itoa n = Nat.repr n := fun _ => rfl
  refine ⟨failureCount env c r, checkData_out env c r, failureCount_le env c r, ?_, ?_, ?_, ?_,
    ?_⟩
  · rw [hv]
    by_cases hz : failureCount env c r = 0 <;> simp [hz]
  · intro hz
    rw [hv, ← hrepr]
    simp [hz]
  · intro h1
    rw [hv, h1, hrepr, String.append_assoc]
    rfl
  · intro h2
    rw [hv, h2, hrepr, String.append_assoc]
    rfl
  · intro h3
    rw [hv, h3, hrepr, String.append_assoc]
    rfl

/-- Witness for C4: `parts/b.fzp` has an empty module id (one failure),
`bare.fzp` has no title and no properties (two failures), `blank.fzp` fails
the three checks, and `parts/a.fzp` is valid. -/
theorem validateFile_error_iff_witness :
    (validateFile sampleEnv false defaultContext "parts/b.fzp").out =
      Outcome.ret (some "1 Errors @ parts/b.fzp") ∧
    (validateFile sampleEnv false defaultContext "bare.fzp").out =
      Outcome.ret (some "2 Errors @ bare.fzp") ∧
    (validateFile sampleEnv false defaultContext "blank.fzp").out =
      Outcome.ret (some "3 Errors @ blank.fzp") ∧
    (validateFile sampleEnv false defaultContext "parts/a.fzp").out = Outcome.ret none := by
  have key : ∀ (src : String) (r : Fzp) (k : Nat), sampleEnv.ReadFzp src = Except.ok r →
      (checkData sampleEnv defaultContext r).out = Outcome.ret k →
      ∃ n, n = k ∧
        ((validateFile sampleEnv false defaultContext src).out = Outcome.ret none ↔ n = 0) ∧
        (n = 1 → (validateFile sampleEnv false defaultContext src).out =
          Outcome.ret (some ("1 Errors @ " ++ src))) ∧
        (n = 2 → (validateFile sampleEnv false defaultContext src).out =
          Outcome.ret (some ("2 Errors @ " ++ src))) ∧
        (n = 3 → (validateFile sampleEnv false defaultContext src).out =
          Outcome.ret (some ("3 Errors @ " ++ src))) := by
    intro src r k hr hk
    obtain ⟨n, hn, -, h0, -, h1, h2, h3⟩ :=
      validateFile_error_iff sampleEnv false defaultContext src r hr
    rw [hk] at hn
    injection hn with hn
    exact ⟨n, hn.symm, h0, h1, h2, h3⟩
  refine ⟨?_, ?_, ?_, ?_⟩
  · obtain ⟨n, hn, -, h1, -, -⟩ := key "parts/b.fzp" noIdRecord 1 rfl (by decide)
    exact h1 hn
  · obtain ⟨n, hn, -, -, h2, -⟩ := key "bare.fzp" bareRecord 2 rfl (by decide)
    exact h2 hn
  · obtain ⟨n, hn, -, -, -, h3⟩ := key "blank.fzp" blankRecord 3 rfl (by decide)
    exact h3 hn
  · obtain ⟨n, hn, h0, -, -, -⟩ := key "parts/a.fzp" validRecord 0 rfl (by decide)
    exact h0.mpr hn

/-! ### `validateFolder` -/

theorem validateFileCalls_append (a b : List Event) :
    validateFileCalls (a ++ b) = validateFileCalls a ++ validateFileCalls b := by
  induction a with
  | nil => rfl
  | cons e t ih => cases e <;> simp [validateFileCalls, ih]

theorem validateFileCalls_stepEvents (d : Bool) (name : String) (res : Option String) :
    validateFileCalls (stepEvents d name res) = [] := by
  cases d <;> cases res <;> simp [stepEvents, validateFileCalls]

theorem validateFileCalls_Log (verbose : Bool) (text : String) :
    validateFileCalls (Log verbose text).trace = [] := by
  cases verbose <;> simp [Log, Printf, emit, pure, validateFileCalls]

theorem validateFileCalls_checkData (env : Env Rec) (c : Context) (r : Rec) :
    validateFileCalls (checkData env c r).trace = [] := by
  simp [checkData_eq, validateFileCalls_append, validateFileCalls_stepEvents]

/-- Every invocation of `validateFile` calls the record loader exactly once,
on its argument. -/
theorem validateFileCalls_validateFile (env : Env Rec) (verbose : Bool) (c : Context)
    (src : String) : validateFileCalls (validateFile env verbose c src).trace = [src] := by
  rcases h : env.ReadFzp src with e | r
  · rw [validateFile_load_error env verbose c src e h]
    rfl
  · rw [validateFile_loaded env verbose c src r h]
    by_cases hz : failureCount env c r = 0 <;>
      simp [validateFileCalls, validateFileCalls_append, validateFileCalls_Log,
        validateFileCalls_checkData, hz]

/-- One iteration of the loop of `validateFolder`. -/
theorem loop_cons (env : Env Rec) (verbose : Bool) (c : Context) (src : String)
    (v : FileInfo) (rest : List FileInfo) (acc : List String) :
    validateFolder.loop env verbose c src (v :: rest) acc =
      if isExtFzp v.Name = true then
        Proc.bind (validateFile env verbose c (entryPath src v)) (fun res =>
          match res with
          | some err =>
            Proc.bind (Println [err, "\n"]) (fun _ =>
              validateFolder.loop env verbose c src rest (acc ++ [err]))
          | none => validateFolder.loop env verbose c src rest acc)
      else validateFolder.loop env verbose c src rest acc := by
  by_cases h : isExtFzp v.Name = true
  · simp only [validateFolder.loop, h, if_true, bind, entryPath]
  · simp only [validateFolder.loop, h, if_false]
    rfl

theorem loop_skip (env : Env Rec) (verbose : Bool) (c : Context) (src : String)
    (v : FileInfo) (rest : List FileInfo) (acc : List String) (h : isExtFzp v.Name = false) :
    validateFolder.loop env verbose c src (v :: rest) acc =
      validateFolder.loop env verbose c src rest acc := by
  rw [loop_cons]
  simp [h]

theorem loop_exit (env : Env Rec) (verbose : Bool) (c : Context) (src : String)
    (v : FileInfo) (rest : List FileInfo) (acc : List String) (h : isExtFzp v.Name = true)
    (code : Nat) (hx : (validateFile env verbose c (entryPath src v)).out = Outcome.exit code) :
    validateFolder.loop env verbose c src (v :: rest) acc =
      ⟨(validateFile env verbose c (entryPath src v)).trace, Outcome.exit code⟩ := by
  rw [loop_cons]
  simp [h, Proc.bind, hx]

theorem loop_pass (env : Env Rec) (verbose : Bool) (c : Context) (src : String)
    (v : FileInfo) (rest : List FileInfo) (acc : List String) (h : isExtFzp v.Name = true)
    (hx : (validateFile env verbose c (entryPath src v)).out = Outcome.ret none) :
    validateFolder.loop env verbose c src (v :: rest) acc =
      ⟨(validateFile env verbose c (entryPath src v)).trace ++
         (validateFolder.loop env verbose c src rest acc).trace,
       (validateFolder.loop env verbose c src rest acc).out⟩ := by
  rw [loop_cons]
  simp [h, Proc.bind, hx]

theorem loop_fail (env : Env Rec) (verbose : Bool) (c : Context) (src : String)
    (v : FileInfo) (rest : List FileInfo) (acc : List String) (h : isExtFzp v.Name = true)
    (err : String)
    (hx : (validateFile env verbose c (entryPath src v)).out = Outcome.ret (some err)) :
    validateFolder.loop env verbose c src (v :: rest) acc =
      ⟨(validateFile env verbose c (entryPath src v)).trace ++
         (Event.stdout (" ".intercalate [err, "\n"] ++ "\n") ::
           (validateFolder.loop env verbose c src rest (acc ++ [err])).trace),
       (validateFolder.loop env verbose c src rest (acc ++ [err])).out⟩ := by
  rw [loop_cons]
  simp [h, Proc.bind, hx, Println, emit]

theorem validateFile_out_loaded (env : Env Rec) (verbose : Bool) (c : Context) (src : String)
    (r : Rec) (h : env.ReadFzp src = Except.ok r) :
    (validateFile env verbose c src).out = Outcome.ret (fileError env verbose c src) := by
  simp [fileError, validateFile_loaded env verbose c src r h]

/-- The loop over a listing followed by more entries: when the loop over the
first part returns, the rest continues from its error list. -/
theorem loop_append (env : Env Rec) (verbose : Bool) (c : Context) (src : String)
    (rest : List FileInfo) :
    ∀ (pre : List FileInfo) (acc acc' : List String),
      (validateFolder.loop env verbose c src pre acc).out = Outcome.ret acc' →
      validateFolder.loop env verbose c src (pre ++ rest) acc =
        ⟨(validateFolder.loop env verbose c src pre acc).trace ++
           (validateFolder.loop env verbose c src rest acc').trace,
         (validateFolder.loop env verbose c src rest acc').out⟩ := by
  intro pre
  induction pre with
  | nil =>
    intro acc acc' h
    simp only [validateFolder.loop, pure] at h
    injection h with h
    subst h
    simp [validateFolder.loop, pure]
  | cons v pre ih =>
    intro acc acc' h
    rw [List.cons_append]
    by_cases hm : isExtFzp v.Name = true
    · rcases hx : (validateFile env verbose c (entryPath src v)).out with res | code
      · cases res with
        | none =>
          rw [loop_pass env verbose c src v pre acc hm hx] at h ⊢
          rw [loop_pass env verbose c src v (pre ++ rest) acc hm hx, ih acc acc' h]
          simp
        | some err =>
          rw [loop_fail env verbose c src v pre acc hm err hx] at h ⊢
          rw [loop_fail env verbose c src v (pre ++ rest) acc hm err hx, ih (acc ++ [err]) acc' h]
          simp
      · rw [loop_exit env verbose c src v pre acc hm code hx] at h
        cases h
    · have hm' : isExtFzp v.Name = false := by simpa using hm
      rw [loop_skip env verbose c src v pre acc hm'] at h ⊢
      rw [loop_skip env verbose c src v (pre ++ rest) acc hm', ih acc acc' h]

/-- The loop over a listing whose matching entries all load: it returns, the
errors are appended in listing order, and `validateFile` is invoked on the
matching entries in listing order. -/
theorem loop_all_load (env : Env Rec) (verbose : Bool) (c : Context) (src : String) :
    ∀ (files : List FileInfo) (acc : List String),
      (∀ v ∈ files, isExtFzp v.Name = true → ∃ r, env.ReadFzp (entryPath src v) = Except.ok r) →
      (validateFolder.loop env verbose c src files acc).out =
        Outcome.ret (acc ++ (matching files).filterMap
          (fun v => fileError env verbose c (entryPath src v))) ∧
      validateFileCalls (validateFolder.loop env verbose c src files acc).trace =
        (matching files).map (entryPath src) := by
  intro files
  induction files with
  | nil =>
    intro acc _
    simp [validateFolder.loop, pure, matching, validateFileCalls]
  | cons v files ih =>
    intro acc H
    have H' : ∀ w ∈ files, isExtFzp w.Name = true →
        ∃ r, env.ReadFzp (entryPath src w) = Except.ok r :=
      fun w hw => H w (List.mem_cons_of_mem _ hw)
    by_cases hm : isExtFzp v.Name = true
    · obtain ⟨r, hr⟩ := H v (List.mem_cons_self _ _) hm
      have hx := validateFile_out_loaded env verbose c (entryPath src v) r hr
      have hcalls := validateFileCalls_validateFile env verbose c (entryPath src v)
      rcases hfe : fileError env verbose c (entryPath src v) with _ | err
      · rw [hfe] at hx
        rw [loop_pass env verbose c src v files acc hm hx]
        obtain ⟨h1, h2⟩ := ih acc H'
        simp [matching, hm, hfe, validateFileCalls_append, hcalls] at h1 h2 ⊢
        exact ⟨h1, h2⟩
      · rw [hfe] at hx
        rw [loop_fail env verbose c src v files acc hm err hx]
        obtain ⟨h1, h2⟩ := ih (acc ++ [err]) H'
        have hs : ∀ (s : String) (t : List Event),
            validateFileCalls (Event.stdout s :: t) = validateFileCalls t := fun _ _ => rfl
        simp [matching, hm, hfe, validateFileCalls_append, hcalls, hs] at h1 h2 ⊢
        exact ⟨h1, h2⟩
    · have hm' : isExtFzp v.Name = false := by simpa using hm
      rw [loop_skip env verbose c src v files acc hm']
      obtain ⟨h1, h2⟩ := ih acc H'
      simp [matching, hm'] at h1 h2 ⊢
      exact ⟨h1, h2⟩

/-- The run of `validateFolder` on a directory that can be listed. -/
theorem validateFolder_listed (env : Env Rec) (verbose : Bool) (c : Context) (src : String)
    (files : List FileInfo) (h : env.ReadDir src = Except.ok files) :
    validateFolder env verbose c src =
      ⟨Event.readDir src :: (validateFolder.loop env verbose c src files []).trace,
       (validateFolder.loop env verbose c src files []).out⟩ := by
  rcases hx : (validateFolder.loop env verbose c src files []).out with res | code <;>
    simp [validateFolder, bind, pure, Proc.bind, callReadDir, emit, h, hx]

theorem validateFileCalls_stdout_cons (s : String) (t : List Event) :
    validateFileCalls (Event.stdout s :: t) = validateFileCalls t := rfl

/-- Only entries whose name has the extension are ever passed to
`validateFile`. -/
theorem loop_calls_matching (env : Env Rec) (verbose : Bool) (c : Context) (src : String) :
    ∀ (files : List FileInfo) (acc : List String) (p : String),
      p ∈ validateFileCalls (validateFolder.loop env verbose c src files acc).trace →
      ∃ w ∈ files, isExtFzp w.Name = true ∧ p = entryPath src w := by
  intro files
  induction files with
  | nil =>
    intro acc p hp
    simp [validateFolder.loop, pure, validateFileCalls] at hp
  | cons v files ih =>
    intro acc p hp
    have hcalls := validateFileCalls_validateFile env verbose c (entryPath src v)
    by_cases hm : isExtFzp v.Name = true
    · rcases hx : (validateFile env verbose c (entryPath src v)).out with res | code
      · cases res with
        | none =>
          rw [loop_pass env verbose c src v files acc hm hx] at hp
          simp only [validateFileCalls_append, hcalls, List.mem_append,
            List.mem_singleton] at hp
          rcases hp with hp | hp
          · exact ⟨v, List.mem_cons_self _ _, hm, hp⟩
          · obtain ⟨w, hw, hwm, hwp⟩ := ih acc p hp
            exact ⟨w, List.mem_cons_of_mem _ hw, hwm, hwp⟩
        | some err =>
          rw [loop_fail env verbose c src v files acc hm err hx] at hp
          simp only [validateFileCalls_append, hcalls, List.mem_append,
            List.mem_singleton, validateFileCalls_stdout_cons] at hp
          rcases hp with hp | hp
          · exact ⟨v, List.mem_cons_self _ _, hm, hp⟩
          · obtain ⟨w, hw, hwm, hwp⟩ := ih (acc ++ [err]) p hp
            exact ⟨w, List.mem_cons_of_mem _ hw, hwm, hwp⟩
      · rw [loop_exit env verbose c src v files acc hm code hx] at hp
        simp only [hcalls, List.mem_singleton] at hp
        exact ⟨v, List.mem_cons_self _ _, hm, hp⟩
    · have hm' : isExtFzp v.Name = false := by simpa using hm
      rw [loop_skip env verbose c src v files acc hm'] at hp
      obtain ⟨w, hw, hwm, hwp⟩ := ih acc p hp
      exact ⟨w, List.mem_cons_of_mem _ hw, hwm, hwp⟩

/-- A matching entry is passed to `validateFile` as soon as the loop reaches
it. -/
theorem loop_calls_head (env : Env Rec) (verbose : Bool) (c : Context) (src : String)
    (v : FileInfo) (rest : List FileInfo) (acc : List String) (hm : isExtFzp v.Name = true) :
    entryPath src v ∈
      validateFileCalls (validateFolder.loop env verbose c src (v :: rest) acc).trace := by
  have hcalls := validateFileCalls_validateFile env verbose c (entryPath src v)
  rcases hx : (validateFile env verbose c (entryPath src v)).out with res | code
  · cases res with
    | none =>
      rw [loop_pass env verbose c src v rest acc hm hx]
      simp [validateFileCalls_append, hcalls]
    | some err =>
      rw [loop_fail env verbose c src v rest acc hm err hx]
      simp [validateFileCalls_append, hcalls]
  · rw [loop_exit env verbose c src v rest acc hm code hx]
    simp [hcalls]

theorem entryPath_injective (src : String) (v w : FileInfo)
    (h : entryPath src v = entryPath src w) : v.Name = w.Name := by
  have h' := congrArg String.data h
  simp only [entryPath, String.data_append, List.append_assoc] at h'
  exact String.ext (List.append_cancel_left (List.append_cancel_left h'))

/-- C6: for a directory that can be listed and whose matching files all load,
`validateFolder` invokes `validateFile` once per entry whose name has the
`.fzp` extension and on no other entry, on the path `src + "/" + name`, in
listing order, and returns the non-nil errors of those invocations in the
same order, none dropped or merged. -/
theorem validateFolder_all_load (env : Env Rec) (verbose : Bool) (c : Context) (src : String)
    (files : List FileInfo) (hl : env.ReadDir src = Except.ok files)
    (hload : ∀ v ∈ files, isExtFzp v.Name = true →
      ∃ r, env.ReadFzp (src ++ "/" ++ v.Name) = Except.ok r) :
    validateFileCalls (validateFolder env verbose c src).trace =
      (files.filter (fun v => isExtFzp v.Name)).map (fun v => src ++ "/" ++ v.Name) ∧
    (validateFileCalls (validateFolder env verbose c src).trace).length =
      (files.filter (fun v => isExtFzp v.Name)).length ∧
    (validateFolder env verbose c src).out =
      Outcome.ret ((files.filter (fun v => isExtFzp v.Name)).filterMap
        (fun v => fileError env verbose c (src ++ "/" ++ v.Name))) := by
  obtain ⟨h1, h2⟩ := loop_all_load env verbose c src files [] hload
  have hc : validateFileCalls (validateFolder env verbose c src).trace =
      (files.filter (fun v => isExtFzp v.Name)).map (fun v => src ++ "/" ++ v.Name) := by
    rw [validateFolder_listed env verbose c src files hl]
    exact h2
  refine ⟨hc, ?_, ?_⟩
  · rw [hc, List.length_map]
  · rw [validateFolder_listed env verbose c src files hl]
    simpa [matching, entryPath] using h1

/-- Witness for C6: the last scenario of the spec, `a.fzp` valid, `b.fzp`
with one failure, `c.txt` ignored: two invocations, one error, naming
`b.fzp`. -/
theorem validateFolder_all_load_witness :
    validateFileCalls (validateFolder sampleEnv false defaultContext "parts").trace =
      ["parts/a.fzp", "parts/b.fzp"] ∧
    (validateFolder sampleEnv false defaultContext "parts").out =
      Outcome.ret ["1 Errors @ parts/b.fzp"] := by
  have h := validateFolder_all_load sampleEnv false defaultContext "parts"
    [⟨"a.fzp", false⟩, ⟨"b.fzp", false⟩, ⟨"c.txt", false⟩] rfl (by
      intro v hv hm
      simp only [List.mem_cons, List.mem_singleton, List.not_mem_nil, or_false] at hv
      rcases hv with rfl | rfl | rfl
      · exact ⟨validRecord, rfl⟩
      · exact ⟨noIdRecord, rfl⟩
      · exact absurd hm (by decide))
  exact ⟨h.1.trans (by decide), h.2.2.trans (by decide)⟩

/-- The run of `validateFolder` on a directory that cannot be listed. -/
theorem validateFolder_read_error_eq (env : Env Rec) (verbose : Bool) (c : Context)
    (src e : String) (h : env.ReadDir src = Except.error e) :
    validateFolder env verbose c src =
      ⟨[Event.readDir src],
       Outcome.ret ["validator failed @ read folder '" ++ src ++ "'"]⟩ ∧
    (validateFolder env verbose c src).out =
      Outcome.ret ["validator failed @ read folder '" ++ src ++ "'"] ∧
    validateFileCalls (validateFolder env verbose c src).trace = [] := by
  have hv : validateFolder env verbose c src =
      ⟨[Event.readDir src],
       Outcome.ret ["validator failed @ read folder '" ++ src ++ "'"]⟩ := by
    simp [validateFolder, bind, pure, Proc.bind, callReadDir, emit, h]
  refine ⟨hv, by rw [hv], ?_⟩
  rw [hv]
  rfl

/-- C9: when the listing of `src` cannot be obtained, `validateFolder`
returns a list holding exactly the one error `validator failed @ read folder
'<src>'`, after the single attempt to list the directory, and `validateFile`
is not invoked. -/
theorem validateFolder_read_error (env : Env Rec) (verbose : Bool) (c : Context)
    (src e : String) (h : env.ReadDir src = Except.error e) :
    validateFolder env verbose c src =
      ⟨[Event.readDir src],
       Outcome.ret ["validator failed @ read folder '" ++ src ++ "'"]⟩ ∧
    (∃ errs, (validateFolder env verbose c src).out = Outcome.ret errs ∧ errs.length = 1) ∧
    validateFileCalls (validateFolder env verbose c src).trace = [] := by
  have hv : validateFolder env verbose c src =
      ⟨[Event.readDir src],
       Outcome.ret ["validator failed @ read folder '" ++ src ++ "'"]⟩ := by
    simp [validateFolder, bind, pure, Proc.bind, callReadDir, emit, h]
  refine ⟨hv, ⟨["validator failed @ read folder '" ++ src ++ "'"], by rw [hv], rfl⟩, ?_⟩
  rw [hv]
  rfl

/-- Witness for C9: the directory `missing` does not exist. -/
theorem validateFolder_read_error_witness :
    validateFolder emptyEnv false defaultContext "missing" =
      ⟨[Event.readDir "missing"],
       Outcome.ret ["validator failed @ read folder 'missing'"]⟩ :=
  (validateFolder_read_error emptyEnv false defaultContext "missing"
    "open missing: no such file or directory" rfl).1

/-- C5, as amended: when a matching entry of the listing fails to load, all
earlier matching entries having loaded, the failure ends the whole run:
after the run over the earlier entries `validateFile` calls the loader on
that entry, prints `validator failed @ <error>` and the process exits with
status 1; no check is run on that file (the checks run are those of the
earlier entries), `validateFolder` returns no list and `validateFile` is
invoked on no later entry. -/
theorem validateFolder_load_failure (env : Env Rec) (verbose : Bool) (c : Context)
    (src : String) (pre post : List FileInfo) (v : FileInfo) (e : String)
    (hl : env.ReadDir src = Except.ok (pre ++ v :: post))
    (hpre : ∀ w ∈ pre, isExtFzp w.Name = true →
      ∃ r, env.ReadFzp (src ++ "/" ++ w.Name) = Except.ok r)
    (hm : isExtFzp v.Name = true)
    (he : env.ReadFzp (src ++ "/" ++ v.Name) = Except.error e) :
    validateFolder env verbose c src =
      ⟨Event.readDir src :: ((validateFolder.loop env verbose c src pre []).trace ++
        [Event.readFzp (src ++ "/" ++ v.Name),
         Event.stdout ("validator failed @ " ++ e ++ "\n")]),
       Outcome.exit 1⟩ ∧
    validateFileCalls (validateFolder env verbose c src).trace =
      (pre.filter (fun w => isExtFzp w.Name)).map (fun w => src ++ "/" ++ w.Name) ++
        [src ++ "/" ++ v.Name] ∧
    checksRun (validateFolder env verbose c src).trace =
      checksRun (validateFolder.loop env verbose c src pre []).trace := by
  obtain ⟨h1, h2⟩ := loop_all_load env verbose c src pre [] hpre
  have hvf := validateFile_load_error env verbose c (entryPath src v) e he
  have hx : (validateFile env verbose c (entryPath src v)).out = Outcome.exit 1 := by
    rw [hvf]
  have heq : validateFolder env verbose c src =
      ⟨Event.readDir src :: ((validateFolder.loop env verbose c src pre []).trace ++
        [Event.readFzp (src ++ "/" ++ v.Name),
         Event.stdout ("validator failed @ " ++ e ++ "\n")]),
       Outcome.exit 1⟩ := by
    rw [validateFolder_listed env verbose c src _ hl,
      loop_append env verbose c src (v :: post) pre [] _ h1,
      loop_exit env verbose c src v post _ hm 1 hx, hvf]
    rfl
  have hr : ∀ (p : String) (t : List Event),
      validateFileCalls (Event.readDir p :: t) = validateFileCalls t := fun _ _ => rfl
  have hk : ∀ (p : String) (t : List Event),
      checksRun (Event.readDir p :: t) = checksRun t := fun _ _ => rfl
  refine ⟨heq, ?_, ?_⟩
  · rw [heq]
    simp only [hr, validateFileCalls_append, h2]
    rfl
  · rw [heq]
    simp only [hk, checksRun_append]
    exact List.append_nil _

/-- Witness for C5: `parts/a.fzp` fails to load, `parts/b.fzp` comes later. -/
theorem validateFolder_load_failure_witness :
    validateFileCalls (validateFolder brokenFileEnv false defaultContext "parts").trace =
      ["parts/a.fzp"] :=
  (validateFolder_load_failure brokenFileEnv false defaultContext "parts" []
    [⟨"b.fzp", false⟩] ⟨"a.fzp", false⟩ "EOF" rfl (by simp) (by decide) rfl).2.1

/-- C5, counterexample: in `parts`, `a.fzp` fails to load and the matching
file `b.fzp` comes later; `validateFolder` does not return a list, the
process exits with status 1 and `b.fzp` is never validated. -/
theorem validateFolder_load_failure_stops :
    isExtFzp "b.fzp" = true ∧
    validateFolder brokenFileEnv false defaultContext "parts" =
      ⟨[Event.readDir "parts", Event.readFzp "parts/a.fzp",
        Event.stdout "validator failed @ EOF\n"],
       Outcome.exit 1⟩ ∧
    "parts/b.fzp" ∉
      validateFileCalls (validateFolder brokenFileEnv false defaultContext "parts").trace := by
  decide

/-- C7, as amended: an entry is skipped by its name alone, whether it is a
file or a subdirectory: `validateFolder` never invokes `validateFile` on an
entry whose name lacks the `.fzp` extension, and it does invoke it on every
entry whose name has the extension, subdirectory or not, once all earlier
matching entries have loaded. -/
theorem validateFolder_skips_by_name (env : Env Rec) (verbose : Bool) (c : Context)
    (src : String) (files : List FileInfo) (hl : env.ReadDir src = Except.ok files) :
    (∀ v ∈ files, isExtFzp v.Name = false →
      (src ++ "/" ++ v.Name) ∉ validateFileCalls (validateFolder env verbose c src).trace) ∧
    (∀ (pre post : List FileInfo) (v : FileInfo), files = pre ++ v :: post →
      (∀ w ∈ pre, isExtFzp w.Name = true →
        ∃ r, env.ReadFzp (src ++ "/" ++ w.Name) = Except.ok r) →
      isExtFzp v.Name = true →
      (src ++ "/" ++ v.Name) ∈ validateFileCalls (validateFolder env verbose c src).trace) := by
  have hr : ∀ (p : String) (t : List Event),
      validateFileCalls (Event.readDir p :: t) = validateFileCalls t := fun _ _ => rfl
  rw [validateFolder_listed env verbose c src files hl]
  simp only [hr]
  refine ⟨?_, ?_⟩
  · intro v _ hm hmem
    obtain ⟨w, _, hwm, hwp⟩ := loop_calls_matching env verbose c src files [] _ hmem
    have hn := entryPath_injective src v w hwp
    rw [hn, hwm] at hm
    cases hm
  · intro pre post v hf hpre hm
    subst hf
    obtain ⟨h1, _⟩ := loop_all_load env verbose c src pre [] hpre
    rw [loop_append env verbose c src (v :: post) pre [] _ h1]
    simp only [validateFileCalls_append, List.mem_append]
    exact Or.inr (loop_calls_head env verbose c src v post _ hm)

/-- Witness for C7: in the sample directory `c.txt` is skipped and `b.fzp`
is validated. -/
theorem validateFolder_skips_by_name_witness :
    "parts/c.txt" ∉
      validateFileCalls (validateFolder sampleEnv false defaultContext "parts").trace ∧
    "parts/b.fzp" ∈
      validateFileCalls (validateFolder sampleEnv false defaultContext "parts").trace := by
  have h := validateFolder_skips_by_name sampleEnv false defaultContext "parts"
    [⟨"a.fzp", false⟩, ⟨"b.fzp", false⟩, ⟨"c.txt", false⟩] rfl
  refine ⟨h.1 ⟨"c.txt", false⟩ (by simp) (by decide), ?_⟩
  refine h.2 [⟨"a.fzp", false⟩] [⟨"c.txt", false⟩] ⟨"b.fzp", false⟩ rfl ?_ (by decide)
  intro w hw _
  simp only [List.mem_singleton] at hw
  subst hw
  exact ⟨validRecord, rfl⟩

/-- C7, counterexample: the only entry of `parts` is a subdirectory named
`sub.fzp`; `validateFolder` invokes `validateFile` on it, the load fails and
the process exits with status 1. -/
theorem validateFolder_validates_subdirectory :
    subdirEnv.ReadDir "parts" = Except.ok [{ Name := "sub.fzp", IsDir := true }] ∧
    validateFolder subdirEnv false defaultContext "parts" =
      ⟨[Event.readDir "parts", Event.readFzp "parts/sub.fzp",
        Event.stdout "validator failed @ read parts/sub.fzp: is a directory\n"],
       Outcome.exit 1⟩ ∧
    "parts/sub.fzp" ∈
      validateFileCalls (validateFolder subdirEnv false defaultContext "parts").trace :=
  ⟨rfl, by decide, by decide⟩

/-! ### `isExtFzp` -/

/-- The loop of `filepath.Ext` returns nothing or a suffix of the path. -/
theorem Ext_loop_suffix (path : List Char) :
    ∀ n, Ext.loop path n = [] ∨ ∃ i, Ext.loop path n = path.drop i := by
  intro n
  induction n with
  | zero => exact Or.inl rfl
  | succ i ih =>
    rw [Ext.loop]
    split
    · exact Or.inl rfl
    · split
      · exact Or.inl rfl
      · split
        · exact Or.inr ⟨i, rfl⟩
        · exact ih

/-- On a path that ends in `.fzp` the loop of `filepath.Ext` stops at that
dot. -/
theorem Ext_loop_fzp (pre : List Char) :
    Ext.loop (pre ++ ['.', 'f', 'z', 'p']) (pre.length + 4) = ['.', 'f', 'z', 'p'] := by
  have h3 : (pre ++ ['.', 'f', 'z', 'p']).get? (pre.length + 3) = some 'p' := by
    rw [List.get?_eq_getElem?, List.getElem?_append_right (by omega)]
    simp
  have h2 : (pre ++ ['.', 'f', 'z', 'p']).get? (pre.length + 2) = some 'z' := by
    rw [List.get?_eq_getElem?, List.getElem?_append_right (by omega)]
    simp
  have h1 : (pre ++ ['.', 'f', 'z', 'p']).get? (pre.length + 1) = some 'f' := by
    rw [List.get?_eq_getElem?, List.getElem?_append_right (by omega)]
    simp
  have h0 : (pre ++ ['.', 'f', 'z', 'p']).get? pre.length = some '.' := by
    rw [List.get?_eq_getElem?, List.getElem?_append_right (by omega)]
    simp
  have e3 : Ext.loop (pre ++ ['.', 'f', 'z', 'p']) (pre.length + 3 + 1) =
      Ext.loop (pre ++ ['.', 'f', 'z', 'p']) (pre.length + 3) := by
    rw [Ext.loop, h3]
    simp [IsPathSeparator]
  have e2 : Ext.loop (pre ++ ['.', 'f', 'z', 'p']) (pre.length + 2 + 1) =
      Ext.loop (pre ++ ['.', 'f', 'z', 'p']) (pre.length + 2) := by
    rw [Ext.loop, h2]
    simp [IsPathSeparator]
  have e1 : Ext.loop (pre ++ ['.', 'f', 'z', 'p']) (pre.length + 1 + 1) =
      Ext.loop (pre ++ ['.', 'f', 'z', 'p']) (pre.length + 1) := by
    rw [Ext.loop, h1]
    simp [IsPathSeparator]
  have e0 : Ext.loop (pre ++ ['.', 'f', 'z', 'p']) (pre.length + 1) =
      ['.', 'f', 'z', 'p'] := by
    rw [Ext.loop, h0]
    simp [IsPathSeparator]
  exact e3.trans (e2.trans (e1.trans e0))

/-- C8: `isExtFzp s` holds exactly when `s` ends with the four characters
`.fzp`; `a.fzp` and `.fzp` are accepted, `a.FZP`, `a.Fzp`, `a.fzp.bak`,
`afzp` and `a.fzpx` are rejected. -/
theorem isExtFzp_iff_suffix :
    (∀ s : String, isExtFzp s = true ↔ ∃ pre : String, s = pre ++ ".fzp") ∧
    isExtFzp "a.fzp" = true ∧ isExtFzp ".fzp" = true ∧
    isExtFzp "a.FZP" = false ∧ isExtFzp "a.Fzp" = false ∧ isExtFzp "a.fzp.bak" = false ∧
    isExtFzp "afzp" = false ∧ isExtFzp "a.fzpx" = false := by
  refine ⟨?_, by decide, by decide, by decide, by decide, by decide, by decide, by decide⟩
  intro s
  have hiff : isExtFzp s = true ↔ Ext.loop s.data s.data.length = ['.', 'f', 'z', 'p'] := by
    unfold isExtFzp Ext
    constructor
    · intro h
      have h' : String.mk (Ext.loop s.data s.data.length) = ".fzp" := by simpa using h
      exact congrArg String.data h'
    · intro h
      rw [h]
      rfl
  rw [hiff]
  constructor
  · intro h
    rcases Ext_loop_suffix s.data s.data.length with h0 | ⟨i, hi⟩
    · rw [h0] at h
      cases h
    · refine ⟨String.mk (s.data.take i), ?_⟩
      apply String.ext
      show s.data = s.data.take i ++ ['.', 'f', 'z', 'p']
      rw [← h, hi]
      exact (List.take_append_drop i s.data).symm
  · rintro ⟨pre, rfl⟩
    have hd : (pre ++ ".fzp").data = pre.data ++ ['.', 'f', 'z', 'p'] := by
      rw [String.data_append]
    rw [hd, List.length_append]
    exact Ext_loop_fzp pre.data

/-! ### `cliValidateAction` -/

theorem cli_file_exit (env : Env Rec) (c : Context) (hf : c.String "file" ≠ "") (code : Nat)
    (hx : (validateFile env (c.Bool "verbose") c (c.String "file")).out = Outcome.exit code) :
    cliValidateAction env c =
      ⟨(validateFile env (c.Bool "verbose") c (c.String "file")).trace, Outcome.exit code⟩ := by
  simp [cliValidateAction, hf, bind, Proc.bind, hx]

theorem cli_file_pass (env : Env Rec) (c : Context) (hf : c.String "file" ≠ "")
    (hx : (validateFile env (c.Bool "verbose") c (c.String "file")).out = Outcome.ret none) :
    cliValidateAction env c =
      ⟨(validateFile env (c.Bool "verbose") c (c.String "file")).trace, Outcome.exit 0⟩ := by
  simp [cliValidateAction, hf, bind, pure, Proc.bind, hx, osExit]

theorem cli_file_fail (env : Env Rec) (c : Context) (hf : c.String "file" ≠ "") (err : String)
    (hx : (validateFile env (c.Bool "verbose") c (c.String "file")).out =
      Outcome.ret (some err)) :
    cliValidateAction env c =
      ⟨(validateFile env (c.Bool "verbose") c (c.String "file")).trace ++
         [Event.stdout (" ".intercalate [err] ++ "\n")],
       Outcome.exit 1⟩ := by
  simp [cliValidateAction, hf, bind, pure, Proc.bind, hx, osExit, Println, emit]

theorem cli_dir_exit (env : Env Rec) (c : Context) (hf : c.String "file" = "")
    (hd : c.String "dir" ≠ "") (code : Nat)
    (hx : (validateFolder env (c.Bool "verbose") c (c.String "dir")).out = Outcome.exit code) :
    cliValidateAction env c =
      ⟨(Log (c.Bool "verbose") ("read folder '" ++ c.String "dir" ++ "'\n")).trace ++
         (validateFolder env (c.Bool "verbose") c (c.String "dir")).trace,
       Outcome.exit code⟩ := by
  cases hv : c.Bool "verbose" <;> rw [hv] at hx <;>
    simp [cliValidateAction, hf, hd, bind, pure, Proc.bind, hx, osExit, Log, Printf, emit, hv]

theorem cli_dir_ret (env : Env Rec) (c : Context) (hf : c.String "file" = "")
    (hd : c.String "dir" ≠ "") (errs : List String)
    (hx : (validateFolder env (c.Bool "verbose") c (c.String "dir")).out = Outcome.ret errs) :
    cliValidateAction env c =
      ⟨(Log (c.Bool "verbose") ("read folder '" ++ c.String "dir" ++ "'\n")).trace ++
         (validateFolder env (c.Bool "verbose") c (c.String "dir")).trace,
       Outcome.exit (if errs = [] then 0 else 1)⟩ := by
  by_cases he : errs = [] <;> cases hv : c.Bool "verbose" <;> rw [hv] at hx <;>
    simp [cliValidateAction, hf, hd, bind, pure, Proc.bind, hx, osExit, Log, Printf, emit, hv,
      he]

theorem cli_help (env : Env Rec) (c : Context) (hf : c.String "file" = "")
    (hd : c.String "dir" = "") :
    (cliValidateAction env c).out = Outcome.ret () ∧
    validateFileCalls (cliValidateAction env c).trace = [] ∧
    readDirCalls (cliValidateAction env c).trace = [] ∧
    (cliValidateAction env c).trace.head? = some (Event.stdout env.subcommandHelp) := by
  simp [cliValidateAction, hf, hd, bind, Proc.bind, Println, Printf, emit, validateFileCalls,
    readDirCalls, checksRun]

theorem readDirCalls_append (a b : List Event) :
    readDirCalls (a ++ b) = readDirCalls a ++ readDirCalls b := by
  induction a with
  | nil => rfl
  | cons e t ih => cases e <;> simp [readDirCalls, ih]

theorem readDirCalls_stepEvents (d : Bool) (name : String) (res : Option String) :
    readDirCalls (stepEvents d name res) = [] := by
  cases d <;> cases res <;> simp [stepEvents, readDirCalls]

theorem readDirCalls_Log (verbose : Bool) (text : String) :
    readDirCalls (Log verbose text).trace = [] := by
  cases verbose <;> simp [Log, Printf, emit, pure, readDirCalls]

theorem readDirCalls_validateFile (env : Env Rec) (verbose : Bool) (c : Context)
    (src : String) : readDirCalls (validateFile env verbose c src).trace = [] := by
  rcases h : env.ReadFzp src with e | r
  · rw [validateFile_load_error env verbose c src e h]
    rfl
  · rw [validateFile_loaded env verbose c src r h]
    have hr : ∀ (p : String) (t : List Event),
        readDirCalls (Event.readFzp p :: t) = readDirCalls t := fun _ _ => rfl
    by_cases hz : failureCount env c r = 0 <;>
      simp [hr, readDirCalls_append, readDirCalls_Log, checkData_eq, readDirCalls_stepEvents,
        hz]

/-- How the loop of `validateFolder` ends: either it returns, every file it
validated loaded, and it appended an error exactly when one of them has a
failing check; or a file it tried to validate failed to load and the process
exited with status 1. -/
theorem loop_outcome (env : Env Rec) (verbose : Bool) (c : Context) (src : String) :
    ∀ (files : List FileInfo) (acc : List String),
      (∃ errs, (validateFolder.loop env verbose c src files acc).out =
            Outcome.ret (acc ++ errs) ∧
          (errs ≠ [] ↔ ∃ p r,
            p ∈ validateFileCalls (validateFolder.loop env verbose c src files acc).trace ∧
            env.ReadFzp p = Except.ok r ∧ failureCount env c r ≠ 0) ∧
          (∀ p ∈ validateFileCalls (validateFolder.loop env verbose c src files acc).trace,
            ∃ r, env.ReadFzp p = Except.ok r)) ∨
      ((validateFolder.loop env verbose c src files acc).out = Outcome.exit 1 ∧
        ∃ p e, p ∈ validateFileCalls (validateFolder.loop env verbose c src files acc).trace ∧
          env.ReadFzp p = Except.error e) := by
  intro files
  induction files with
  | nil =>
    intro acc
    refine Or.inl ⟨[], by simp [validateFolder.loop, pure], ?_, ?_⟩
    · simp [validateFolder.loop, pure, validateFileCalls]
    · simp [validateFolder.loop, pure, validateFileCalls]
  | cons v files ih =>
    intro acc
    have hcalls := validateFileCalls_validateFile env verbose c (entryPath src v)
    by_cases hm : isExtFzp v.Name = true
    · rcases hr : env.ReadFzp (entryPath src v) with e | r
      · have hvf := validateFile_load_error env verbose c (entryPath src v) e hr
        have hx : (validateFile env verbose c (entryPath src v)).out = Outcome.exit 1 := by
          rw [hvf]
        rw [loop_exit env verbose c src v files acc hm 1 hx]
        exact Or.inr ⟨rfl, entryPath src v, e, by simp [hcalls], hr⟩
      · have hvf := validateFile_loaded env verbose c (entryPath src v) r hr
        by_cases hz : failureCount env c r = 0
        · have hx : (validateFile env verbose c (entryPath src v)).out = Outcome.ret none := by
            rw [hvf]
            simp [hz]
          rw [loop_pass env verbose c src v files acc hm hx]
          simp only [validateFileCalls_append, hcalls]
          rcases ih acc with ⟨errs, ho, hiff, hall⟩ | ⟨ho, p, e, hp, hpe⟩
          · refine Or.inl ⟨errs, ho, ?_, ?_⟩
            · constructor
              · intro hne
                obtain ⟨p, r', hp, hpr, hpf⟩ := hiff.mp hne
                exact ⟨p, r', List.mem_append_right _ hp, hpr, hpf⟩
              · rintro ⟨p, r', hp, hpr, hpf⟩
                rcases List.mem_append.mp hp with hp | hp
                · rw [List.mem_singleton] at hp
                  subst hp
                  rw [hr] at hpr
                  injection hpr with hpr
                  subst hpr
                  exact absurd hz hpf
                · exact hiff.mpr ⟨p, r', hp, hpr, hpf⟩
            · intro p hp
              rcases List.mem_append.mp hp with hp | hp
              · rw [List.mem_singleton] at hp
                subst hp
                exact ⟨r, hr⟩
              · exact hall p hp
          · exact Or.inr ⟨ho, p, e, List.mem_append_right _ hp, hpe⟩
        · have hx : (validateFile env verbose c (entryPath src v)).out = Outcome.ret
              (some (Itoa (failureCount env c r) ++ " Errors @ " ++ entryPath src v)) := by
            rw [hvf]
            simp [hz]
          rw [loop_fail env verbose c src v files acc hm _ hx]
          simp only [validateFileCalls_append, hcalls, validateFileCalls_stdout_cons]
          rcases ih (acc ++ [Itoa (failureCount env c r) ++ " Errors @ " ++ entryPath src v])
            with ⟨errs, ho, -, hall⟩ | ⟨ho, p, e, hp, hpe⟩
          · refine Or.inl ⟨(Itoa (failureCount env c r) ++ " Errors @ " ++ entryPath src v)
              :: errs, by simpa using ho, ?_, ?_⟩
            · constructor
              · intro _
                exact ⟨entryPath src v, r, by simp, hr, hz⟩
              · intro _
                simp
            · intro p hp
              rcases List.mem_append.mp hp with hp | hp
              · rw [List.mem_singleton] at hp
                subst hp
                exact ⟨r, hr⟩
              · exact hall p hp
          · exact Or.inr ⟨ho, p, e, List.mem_append_right _ hp, hpe⟩
    · have hm' : isExtFzp v.Name = false := by simpa using hm
      rw [loop_skip env verbose c src v files acc hm']
      exact ih acc

/-- The `--file` branch: one invocation of `validateFile`, no listing, and
the exit status it leads to. -/
theorem cli_file_summary (env : Env Rec) (c : Context) (hf : c.String "file" ≠ "") :
    validateFileCalls (cliValidateAction env c).trace = [c.String "file"] ∧
    readDirCalls (cliValidateAction env c).trace = [] ∧
    exitStatus env c =
      (match env.ReadFzp (c.String "file") with
       | Except.error _ => 1
       | Except.ok r => if failureCount env c r = 0 then 0 else 1) := by
  have hcalls := validateFileCalls_validateFile env (c.Bool "verbose") c (c.String "file")
  have hdirs := readDirCalls_validateFile env (c.Bool "verbose") c (c.String "file")
  rcases hr : env.ReadFzp (c.String "file") with e | r
  · have hvf := validateFile_load_error env (c.Bool "verbose") c (c.String "file") e hr
    have hx : (validateFile env (c.Bool "verbose") c (c.String "file")).out =
        Outcome.exit 1 := by rw [hvf]
    have hcli := cli_file_exit env c hf 1 hx
    refine ⟨by rw [hcli]; exact hcalls, by rw [hcli]; exact hdirs, ?_⟩
    simp [exitStatus, hcli]
  · have hvf := validateFile_loaded env (c.Bool "verbose") c (c.String "file") r hr
    by_cases hz : failureCount env c r = 0
    · have hx : (validateFile env (c.Bool "verbose") c (c.String "file")).out =
          Outcome.ret none := by
        rw [hvf]
        simp [hz]
      have hcli := cli_file_pass env c hf hx
      refine ⟨by rw [hcli]; exact hcalls, by rw [hcli]; exact hdirs, ?_⟩
      simp [exitStatus, hcli, hz]
    · have hx : (validateFile env (c.Bool "verbose") c (c.String "file")).out = Outcome.ret
          (some (Itoa (failureCount env c r) ++ " Errors @ " ++ c.String "file")) := by
        rw [hvf]
        simp [hz]
      have hcli := cli_file_fail env c hf _ hx
      refine ⟨?_, ?_, ?_⟩
      · rw [hcli]
        simp only [validateFileCalls_append, hcalls]
        rfl
      · rw [hcli]
        simp only [readDirCalls_append, hdirs]
        rfl
      · simp [exitStatus, hcli, hz]

/-- The `--dir` branch: the invocations of `validateFile` are those of
`validateFolder`, and the exit status is 1 exactly when the returned list is
not empty, unless the process already exited. -/
theorem cli_dir_summary (env : Env Rec) (c : Context) (hf : c.String "file" = "")
    (hd : c.String "dir" ≠ "") :
    validateFileCalls (cliValidateAction env c).trace =
      validateFileCalls (validateFolder env (c.Bool "verbose") c (c.String "dir")).trace ∧
    exitStatus env c =
      (match (validateFolder env (c.Bool "verbose") c (c.String "dir")).out with
       | Outcome.ret errs => if errs = [] then 0 else 1
       | Outcome.exit code => code) := by
  rcases hx : (validateFolder env (c.Bool "verbose") c (c.String "dir")).out with errs | code
  · have hcli := cli_dir_ret env c hf hd errs hx
    refine ⟨?_, ?_⟩
    · rw [hcli]
      simp [validateFileCalls_append, validateFileCalls_Log]
    · simp [exitStatus, hcli]
  · have hcli := cli_dir_exit env c hf hd code hx
    refine ⟨?_, ?_⟩
    · rw [hcli]
      simp [validateFileCalls_append, validateFileCalls_Log]
    · simp [exitStatus, hcli]

/-- C10, as amended: the exit status of the `validate` subcommand is 0 or 1,
and it is 1 exactly when a file validated in the run has a failing check, or
a file the run set out to validate could not be loaded, or the target
directory could not be listed.  The files the run sets out to validate are
the `--file` path alone when `--file` is given, and otherwise only entries
of the `--dir` listing whose name has the `.fzp` extension.  A flag is given
when its value is not empty.  Without `--file` and `--dir` the help is
shown, nothing is read and the status is 0; with `--file`, whatever `--dir`
is, only that file is validated and no directory is listed; a directory
without matching entries gives status 0. -/
theorem exitStatus_iff (env : Env Rec) (c : Context) :
    (exitStatus env c = 0 ∨ exitStatus env c = 1) ∧
    (exitStatus env c = 1 ↔
      (∃ p r, p ∈ validateFileCalls (cliValidateAction env c).trace ∧
        env.ReadFzp p = Except.ok r ∧ (checkData env c r).out ≠ Outcome.ret 0) ∨
      (∃ p e, p ∈ validateFileCalls (cliValidateAction env c).trace ∧
        env.ReadFzp p = Except.error e) ∨
      (c.String "file" = "" ∧ c.String "dir" ≠ "" ∧
        ∃ e, env.ReadDir (c.String "dir") = Except.error e)) ∧
    (c.String "file" = "" → c.String "dir" = "" →
      exitStatus env c = 0 ∧ (cliValidateAction env c).out = Outcome.ret () ∧
      (cliValidateAction env c).trace.head? = some (Event.stdout env.subcommandHelp) ∧
      validateFileCalls (cliValidateAction env c).trace = [] ∧
      readDirCalls (cliValidateAction env c).trace = []) ∧
    (c.String "file" ≠ "" →
      validateFileCalls (cliValidateAction env c).trace = [c.String "file"] ∧
      readDirCalls (cliValidateAction env c).trace = []) ∧
    (c.String "file" = "" → c.String "dir" ≠ "" → ∀ files,
      env.ReadDir (c.String "dir") = Except.ok files →
      (∀ v ∈ files, isExtFzp v.Name = false) → exitStatus env c = 0) ∧
    (c.String "file" = "" → c.String "dir" ≠ "" → ∀ files,
      env.ReadDir (c.String "dir") = Except.ok files →
      ∀ p ∈ validateFileCalls (cliValidateAction env c).trace,
        ∃ v ∈ files, isExtFzp v.Name = true ∧ p = c.String "dir" ++ "/" ++ v.Name) := by
  have hfc : ∀ r, ((checkData env c r).out ≠ Outcome.ret 0 ↔ failureCount env c r ≠ 0) := by
    intro r
    rw [checkData_out]
    constructor
    · intro h h0
      exact h (by rw [h0])
    · intro h h0
      injection h0 with h0
      exact h h0
  simp only [hfc]
  by_cases hf : c.String "file" = ""
  · by_cases hd : c.String "dir" = ""
    · obtain ⟨ho, hc, hdc, hh⟩ := cli_help env c hf hd
      have he : exitStatus env c = 0 := by simp [exitStatus, ho]
      refine ⟨Or.inl he, ?_, fun _ _ => ⟨he, ho, hh, hc, hdc⟩, fun h => absurd hf h,
        fun _ h => absurd hd h, fun _ h => absurd hd h⟩
      simp [he, hc, hd]
    · obtain ⟨hc, he⟩ := cli_dir_summary env c hf hd
      rcases hl : env.ReadDir (c.String "dir") with e | files
      · obtain ⟨hv, -, hvc⟩ :=
          validateFolder_read_error_eq env (c.Bool "verbose") c (c.String "dir") e hl
        rw [hv] at he
        rw [hvc] at hc
        have he1 : exitStatus env c = 1 := by simpa using he
        refine ⟨Or.inr he1, ?_, fun _ h => absurd h hd, fun h => absurd hf h, ?_, ?_⟩
        · simp [he1, hc, hf, hd]
        · intro _ _ files hfiles
          cases hfiles
        · intro _ _ files hfiles
          cases hfiles
      · have hv := validateFolder_listed env (c.Bool "verbose") c (c.String "dir") files hl
        have hr : ∀ (p : String) (t : List Event),
            validateFileCalls (Event.readDir p :: t) = validateFileCalls t := fun _ _ => rfl
        rw [hv] at he hc
        simp only [hr] at hc
        have hnomatch : (∀ v ∈ files, isExtFzp v.Name = false) → exitStatus env c = 0 := by
          intro hno
          obtain ⟨h1, -⟩ := loop_all_load env (c.Bool "verbose") c (c.String "dir") files []
            (fun v hv hm => by rw [hno v hv] at hm; cases hm)
          have hmt : matching files = [] := by
            simp only [matching, List.filter_eq_nil_iff]
            intro v hv
            simp [hno v hv]
          rw [h1, hmt] at he
          simpa using he
        have hentries : ∀ files' : List FileInfo,
            (Except.ok files : Except String (List FileInfo)) = Except.ok files' →
            ∀ p ∈ validateFileCalls (cliValidateAction env c).trace,
              ∃ v ∈ files', isExtFzp v.Name = true ∧ p = c.String "dir" ++ "/" ++ v.Name := by
          intro files' hfiles p hp
          injection hfiles with hfiles
          subst hfiles
          rw [hc] at hp
          exact loop_calls_matching env (c.Bool "verbose") c (c.String "dir") files [] p hp
        rcases loop_outcome env (c.Bool "verbose") c (c.String "dir") files [] with
          ⟨errs, ho, hiff, hall⟩ | ⟨ho, p, e, hp, hpe⟩
        · rw [ho] at he
          simp only [List.nil_append] at he
          refine ⟨?_, ?_, fun _ h => absurd h hd, fun h => absurd hf h, ?_,
            fun _ _ => hentries⟩
          · by_cases hn : errs = [] <;> simp [he, hn]
          · rw [hc]
            constructor
            · intro h1
              have hne : errs ≠ [] := by
                intro hn
                simp [he, hn] at h1
              exact Or.inl (hiff.mp hne)
            · rintro (h | ⟨p, e, hp, hpe⟩ | ⟨-, -, e, hde⟩)
              · have hne := hiff.mpr h
                simp [he, hne]
              · obtain ⟨r, hr'⟩ := hall p hp
                rw [hr'] at hpe
                cases hpe
              · cases hde
          · intro _ _ files' hfiles hno
            injection hfiles with hfiles
            subst hfiles
            exact hnomatch hno
        · rw [ho] at he
          have he1 : exitStatus env c = 1 := by simpa using he
          refine ⟨Or.inr he1, ?_, fun _ h => absurd h hd, fun h => absurd hf h, ?_,
            fun _ _ => hentries⟩
          · rw [hc]
            simp only [he1, true_iff]
            exact Or.inr (Or.inl ⟨p, e, hp, hpe⟩)
          · intro _ _ files' hfiles hno
            injection hfiles with hfiles
            subst hfiles
            exact hnomatch hno
  · obtain ⟨hc, hdc, he⟩ := cli_file_summary env c hf
    refine ⟨?_, ?_, fun h => absurd h hf, fun _ => ⟨hc, hdc⟩, fun h => absurd h hf,
      fun h => absurd h hf⟩
    · rcases hr : env.ReadFzp (c.String "file") with e | r
      · rw [hr] at he
        exact Or.inr he
      · rw [hr] at he
        by_cases hz : failureCount env c r = 0 <;> simp [he, hz]
    · rw [hc]
      rcases hr : env.ReadFzp (c.String "file") with e | r
      · rw [hr] at he
        simp [he, hr]
      · rw [hr] at he
        by_cases hz : failureCount env c r = 0 <;> simp [he, hz, hr, hf]

/-- Witness for C10: `--file parts/b.fzp --dir parts` validates only the
file; `--dir parts` exits with status 1 because `parts/b.fzp` has a failing
check; `--dir docs` has no matching entry and exits with status 0; without
`--file` and `--dir` the status is 0. -/
theorem exitStatus_iff_witness :
    (validateFileCalls (cliValidateAction sampleEnv (mkContext "parts/b.fzp" "parts")).trace =
        ["parts/b.fzp"] ∧
      readDirCalls (cliValidateAction sampleEnv (mkContext "parts/b.fzp" "parts")).trace = []) ∧
    exitStatus sampleEnv (mkContext "" "parts") = 1 ∧
    exitStatus sampleEnv (mkContext "" "docs") = 0 ∧
    exitStatus sampleEnv defaultContext = 0 :=
  ⟨(exitStatus_iff sampleEnv (mkContext "parts/b.fzp" "parts")).2.2.2.1 (by decide),
   (exitStatus_iff sampleEnv (mkContext "" "parts")).2.1.mpr
     (Or.inl ⟨"parts/b.fzp", noIdRecord, by decide, rfl, by decide⟩),
   (exitStatus_iff sampleEnv (mkContext "" "docs")).2.2.2.2.1 (by decide) (by decide)
     [⟨"img", true⟩, ⟨"readme.txt", false⟩] rfl (by decide),
   ((exitStatus_iff sampleEnv defaultContext).2.2.1 (by decide) (by decide)).1⟩

/-- C10, counterexample: with `--dir parts` and no `--file`, the directory
is listed; its matching entry `a.fzp` fails to load, its other entry `b.fzp`
is a record without failing check, and no check is run at all; the exit
status is 1 although no validated file has a failing check, no `--file`
target exists and the target directory was listed. -/
theorem exitStatus_load_failure_in_directory :
    (mkContext "" "parts").String "file" = "" ∧
    brokenFileEnv.ReadDir ((mkContext "" "parts").String "dir") =
      Except.ok [{ Name := "a.fzp", IsDir := false }, { Name := "b.fzp", IsDir := false }] ∧
    brokenFileEnv.ReadFzp "parts/a.fzp" = Except.error "EOF" ∧
    brokenFileEnv.ReadFzp "parts/b.fzp" = Except.ok validRecord ∧
    (checkData brokenFileEnv (mkContext "" "parts") validRecord).out = Outcome.ret 0 ∧
    validateFileCalls (cliValidateAction brokenFileEnv (mkContext "" "parts")).trace =
      ["parts/a.fzp"] ∧
    checksRun (cliValidateAction brokenFileEnv (mkContext "" "parts")).trace = [] ∧
    exitStatus brokenFileEnv (mkContext "" "parts") = 1 :=
  ⟨by decide, rfl, rfl, rfl, by decide, by decide, by decide, by decide⟩

end Theorems

end FzpValidator
